import Mathlib

/-!
Shallow embedding of the SecretVoting contract (contracts/SecretVoting.sol)
and verification of the frozen specification claims.

Addresses are modelled as natural numbers, block timestamps as natural
numbers, and the FHE-encrypted counters by their semantic values:
a euint32 handle is a natural number reduced modulo 2^32, an ebool by a
Bool.  Every FHE permission primitive (allow, allowTransient, allowThis,
makePubliclyDecryptable) is recorded in a per-call action log, since the
claims speak about which grants a call performs.  Solidity's require
reverts the whole call, so each entry point returns the unchanged state
together with the error on a failed check.
-/

namespace SecretVoting

/-- The ResultDisclosureStrategy enum of the contract. -/
inductive ResultDisclosureStrategy
  | PUBLIC_AFTER_END
  | OWNER_ONLY
  | QUALIFIED_ONLY
deriving DecidableEq

/-- The Proposal struct of the contract. -/
structure Proposal where
  title : String
  description : String
  startTime : Nat
  endTime : Nat
  optionCount : Nat
  finalized : Bool
  owner : Nat
  strategy : ResultDisclosureStrategy
  minQuorum : Nat
deriving DecidableEq

/-- Solidity zero-value of the Proposal struct: what a mapping returns for a
key that was never written. -/
def defaultProposal : Proposal :=
  ⟨"", "", 0, 0, 0, false, 0, .PUBLIC_AFTER_END, 0⟩

/-- The ProposalResults struct: semantic values of the encrypted counters.
Each stored euint32 value is kept reduced modulo 2 to the 32. -/
structure ProposalResults where
  optionVotes : List Nat
  totalVotes : Nat
deriving DecidableEq

/-- Zero-value of ProposalResults for a never-written mapping key. -/
def defaultResults : ProposalResults := ⟨[], 0⟩

/-- Identifies one encrypted value held by the contract, as a target of a
permission primitive. -/
inductive PermTarget
  | optionCounter (proposalId i : Nat)
  | totalCounter (proposalId : Nat)
  | hasVotedFlag (proposalId voter : Nat)
deriving DecidableEq

/-- One call to an FHE permission primitive, as recorded in a call's log. -/
inductive PermAction
  | allow (t : PermTarget) (account : Nat)
  | allowTransient (t : PermTarget) (account : Nat)
  | allowThis (t : PermTarget)
  | makePubliclyDecryptable (t : PermTarget)
deriving DecidableEq

/-- Events emitted by the contract. -/
inductive Event
  | ProposalCreated (proposalId owner : Nat) (title : String)
      (optionCount startTime endTime : Nat)
  | VoteCast (proposalId voter : Nat)
  | ProposalFinalized (proposalId : Nat)
deriving DecidableEq

/-- Revert reasons, one constructor per require message in the contract. -/
inductive VError
  | NotOwner
  | NotAdministrator
  | NotProposer
  | InvalidOptionCount
  | InvalidDuration
  | InvalidQuorum
  | VotingNotStarted
  | VotingEnded
  | ProposalFinalized
  | AlreadyVoted
  | VotingNotEnded
  | AlreadyFinalized
  | InvalidOption
  | NotAuthorized
  | NotFound
deriving DecidableEq

/-- Contract storage of SecretVoting.  Solidity mappings are total
functions returning the zero value on unwritten keys. -/
structure SVState where
  owner : Nat
  administrators : Nat → Bool
  proposers : Nat → Bool
  proposals : Nat → Proposal
  results : Nat → ProposalResults
  hasVotedClear : Nat → Nat → Bool
  hasVotedEnc : Nat → Nat → Bool
  proposalCount : Nat
  defaultVotingDuration : Nat

/-- State after the constructor runs with the given deployer. -/
def initState (deployer : Nat) : SVState where
  owner := deployer
  administrators := fun a => a == deployer
  proposers := fun a => a == deployer
  proposals := fun _ => defaultProposal
  results := fun _ => defaultResults
  hasVotedClear := fun _ _ => false
  hasVotedEnc := fun _ _ => false
  proposalCount := 0
  defaultVotingDuration := 7 * 86400

/-- Result of one external call: the post state (equal to the input state
when the call reverts), the revert reason if any, the returned value if
any, the log of FHE permission actions, the number of nontrivial FHE
operations performed, and the emitted events. -/
structure CallResult where
  state : SVState
  error : Option VError
  ret : Option Nat
  perms : List PermAction
  fheOps : Nat
  events : List Event

/-- A failed require: the call reverts, leaving state unchanged and having
performed no FHE work and emitted nothing. -/
def revertWith (s : SVState) (e : VError) : CallResult :=
  ⟨s, some e, none, [], 0, []⟩

/-- 2 to the 32, the modulus of euint32 arithmetic. -/
def MOD32 : Nat := 4294967296

/-- 365 days in seconds. -/
def DAYS365 : Nat := 365 * 86400

/-- Body of createProposal after its three require checks pass: the
proposal is stored at the next sequential id, the encrypted counters are
initialized to zero (with allowThis on each), and the creation event is
emitted. -/
def createSucc (s : SVState) (sender now : Nat)
    (title description : String) (optionCount duration : Nat)
    (strategy : ResultDisclosureStrategy) (minQuorum : Nat) : CallResult :=
  let proposalId := s.proposalCount
  let startTime := now
  let endTime := now + duration
  let p : Proposal :=
    ⟨title, description, startTime, endTime, optionCount, false, sender,
      strategy, minQuorum⟩
  let res : ProposalResults := ⟨List.replicate optionCount 0, 0⟩
  { state :=
      { s with
        proposalCount := s.proposalCount + 1
        proposals := fun i => if i = proposalId then p else s.proposals i
        results := fun i => if i = proposalId then res else s.results i }
    error := none
    ret := some proposalId
    perms :=
      ((List.range optionCount).map fun i =>
        .allowThis (.optionCounter proposalId i))
      ++ [.allowThis (.totalCounter proposalId)]
    fheOps := optionCount + 1
    events := [.ProposalCreated proposalId sender title optionCount
                startTime endTime] }

/-- createProposal.  The three require checks run in source order.  Note:
the source declares no access-control modifier on createProposal, so no
caller check is performed here. -/
def createProposal (s : SVState) (sender now : Nat)
    (title description : String) (optionCount duration : Nat)
    (strategy : ResultDisclosureStrategy) (minQuorum : Nat) : CallResult :=
  if ¬ (2 ≤ optionCount ∧ optionCount ≤ 10) then revertWith s .InvalidOptionCount
  else if ¬ (0 < duration ∧ duration ≤ DAYS365) then revertWith s .InvalidDuration
  else if ¬ (0 < minQuorum) then revertWith s .InvalidQuorum
  else createSucc s sender now title description optionCount duration
        strategy minQuorum

/-- The vote loop of the contract: for each index i below optionCount, add
an encrypted 0-or-1 increment (1 exactly when the imported choice equals i)
into counter i, modulo 2 to the 32.  The recursion carries the running
index; on every reachable state the list length equals optionCount, so the
loop bound and the list agree. -/
def voteLoop (opt count : Nat) : Nat → List Nat → List Nat
  | _, [] => []
  | i, c :: rest =>
      (if i < count then (c + (if opt = i then 1 else 0)) % MOD32 else c)
        :: voteLoop opt count (i + 1) rest

/-- Body of vote after its four require checks pass: the imported euint8
choice (its value modulo 256) drives the homomorphic update of every
per-option counter, the total is incremented, the voter is marked as
having voted, and strategy-dependent permissions are granted. -/
def voteSucc (s : SVState) (sender : Nat) (proposalId optionValue : Nat) :
    CallResult :=
  let proposal := s.proposals proposalId
  let opt := optionValue % 256
  let results := s.results proposalId
  let newOptionVotes := voteLoop opt proposal.optionCount 0 results.optionVotes
  let newTotal := (results.totalVotes + 1) % MOD32
  let basePerms : List PermAction :=
    ((List.range proposal.optionCount).map fun i =>
      .allowThis (.optionCounter proposalId i))
    ++ [.allowThis (.totalCounter proposalId),
        .allow (.hasVotedFlag proposalId sender) sender]
  let stratPerms : List PermAction :=
    match proposal.strategy with
    | .PUBLIC_AFTER_END => []
    | .OWNER_ONLY =>
        ((List.range proposal.optionCount).map fun i =>
          .allow (.optionCounter proposalId i) proposal.owner)
        ++ [.allow (.totalCounter proposalId) proposal.owner]
    | .QUALIFIED_ONLY =>
        ((List.range proposal.optionCount).map fun i =>
          .allowTransient (.optionCounter proposalId i) sender)
        ++ [.allowTransient (.totalCounter proposalId) sender]
  { state :=
      { s with
        results := fun i =>
          if i = proposalId then ⟨newOptionVotes, newTotal⟩ else s.results i
        hasVotedClear := fun p v =>
          if p = proposalId ∧ v = sender then true else s.hasVotedClear p v
        hasVotedEnc := fun p v =>
          if p = proposalId ∧ v = sender then true else s.hasVotedEnc p v }
    error := none
    ret := none
    perms := basePerms ++ stratPerms
    fheOps := 1 + 3 * proposal.optionCount + 1 + 1
    events := [.VoteCast proposalId sender] }

/-- vote.  The four require checks run in source order (timing, finalized,
vote guard) before any FHE operation. -/
def vote (s : SVState) (sender now : Nat) (proposalId optionValue : Nat) :
    CallResult :=
  if now < (s.proposals proposalId).startTime then revertWith s .VotingNotStarted
  else if (s.proposals proposalId).endTime < now then revertWith s .VotingEnded
  else if (s.proposals proposalId).finalized then revertWith s .ProposalFinalized
  else if s.hasVotedClear proposalId sender then revertWith s .AlreadyVoted
  else voteSucc s sender proposalId optionValue

/-- Body of finalizeProposal after its two require checks pass: finalized
is set and the strategy decides the permission release.  Note: the
OWNER ONLY branch grants to the contract-global owner state variable, not
to the owner field of the proposal. -/
def finalizeSucc (s : SVState) (proposalId : Nat) : CallResult :=
  let proposal := s.proposals proposalId
  let perms : List PermAction :=
    match proposal.strategy with
    | .PUBLIC_AFTER_END =>
        ((List.range proposal.optionCount).map fun i =>
          .makePubliclyDecryptable (.optionCounter proposalId i))
        ++ [.makePubliclyDecryptable (.totalCounter proposalId)]
    | .OWNER_ONLY =>
        ((List.range proposal.optionCount).map fun i =>
          .allow (.optionCounter proposalId i) s.owner)
        ++ [.allow (.totalCounter proposalId) s.owner]
    | .QUALIFIED_ONLY => []
  { state :=
      { s with
        proposals := fun i =>
          if i = proposalId then { proposal with finalized := true }
          else s.proposals i }
    error := none
    ret := none
    perms := perms
    fheOps := 0
    events := [.ProposalFinalized proposalId] }

/-- finalizeProposal.  No existence check on the id; the two require
checks (timing, not yet finalized) run in source order. -/
def finalizeProposal (s : SVState) (_sender now : Nat) (proposalId : Nat) :
    CallResult :=
  if ¬ ((s.proposals proposalId).endTime < now) then revertWith s .VotingNotEnded
  else if (s.proposals proposalId).finalized then revertWith s .AlreadyFinalized
  else finalizeSucc s proposalId

/-- The auto-generated public getter of the proposals mapping: total, it
returns the stored struct (the zero value for unwritten keys) and never
reverts. -/
def getProposal (s : SVState) (proposalId : Nat) : Except VError Proposal :=
  .ok (s.proposals proposalId)

/-- getOptionVotes: range check on the option index, then the stored
encrypted counter value. -/
def getOptionVotes (s : SVState) (proposalId optionIndex : Nat) :
    Except VError Nat :=
  if optionIndex < (s.proposals proposalId).optionCount then
    .ok ((s.results proposalId).optionVotes.getD optionIndex 0)
  else .error .InvalidOption

/-- getTotalVotes: the stored encrypted total. -/
def getTotalVotes (s : SVState) (proposalId : Nat) : Except VError Nat :=
  .ok (s.results proposalId).totalVotes

/-- grantDecryptionPermission: caller must be the proposal owner, the
global owner, or an administrator; grants persistent permission on every
counter and the total to the account. -/
def grantDecryptionPermission (s : SVState) (sender : Nat)
    (proposalId account : Nat) : CallResult :=
  if sender = (s.proposals proposalId).owner ∨ sender = s.owner ∨
      s.administrators sender = true then
    { state := s
      error := none
      ret := none
      perms :=
        ((List.range (s.proposals proposalId).optionCount).map fun i =>
          .allow (.optionCounter proposalId i) account)
        ++ [.allow (.totalCounter proposalId) account]
      fheOps := 0
      events := [] }
  else revertWith s .NotAuthorized

/-- setProposer, guarded by the onlyAdministrator modifier. -/
def setProposer (s : SVState) (sender account : Nat) (status : Bool) :
    CallResult :=
  if s.administrators sender = true ∨ sender = s.owner then
    { state :=
        { s with proposers := fun a => if a = account then status else s.proposers a }
      error := none, ret := none, perms := [], fheOps := 0, events := [] }
  else revertWith s .NotAdministrator

/-- setAdministrator, guarded by the onlyOwner modifier. -/
def setAdministrator (s : SVState) (sender account : Nat) (status : Bool) :
    CallResult :=
  if sender = s.owner then
    { state :=
        { s with
          administrators := fun a => if a = account then status else s.administrators a }
      error := none, ret := none, perms := [], fheOps := 0, events := [] }
  else revertWith s .NotOwner

/-- setDefaultVotingDuration, guarded by onlyOwner then a range check. -/
def setDefaultVotingDuration (s : SVState) (sender duration : Nat) :
    CallResult :=
  if sender = s.owner then
    if 0 < duration ∧ duration ≤ DAYS365 then
      { state := { s with defaultVotingDuration := duration }
        error := none, ret := none, perms := [], fheOps := 0, events := [] }
    else revertWith s .InvalidDuration
  else revertWith s .NotOwner

/-- One state-mutating external call, with all its arguments. -/
inductive Op
  | create (sender now : Nat) (title description : String)
      (optionCount duration : Nat) (strategy : ResultDisclosureStrategy)
      (minQuorum : Nat)
  | vote (sender now proposalId optionValue : Nat)
  | finalize (sender now proposalId : Nat)
  | grant (sender proposalId account : Nat)
  | setProposerOp (sender account : Nat) (status : Bool)
  | setAdministratorOp (sender account : Nat) (status : Bool)
  | setDurationOp (sender duration : Nat)

/-- Dispatch one call. -/
def execOp (s : SVState) : Op → CallResult
  | .create sender now t d oc dur strat mq =>
      createProposal s sender now t d oc dur strat mq
  | .vote sender now pid ov => vote s sender now pid ov
  | .finalize sender now pid => finalizeProposal s sender now pid
  | .grant sender pid acct => grantDecryptionPermission s sender pid acct
  | .setProposerOp sender acct st => setProposer s sender acct st
  | .setAdministratorOp sender acct st => setAdministrator s sender acct st
  | .setDurationOp sender dur => setDefaultVotingDuration s sender dur

/-- The state after one call (unchanged if the call reverted). -/
def exec (s : SVState) (op : Op) : SVState := (execOp s op).state

/-- The state after a sequence of calls. -/
def execTrace (s : SVState) : List Op → SVState
  | [] => s
  | op :: ops => execTrace (exec s op) ops

/-- A vote call is in range when, if it is accepted, the semantic value of
its encrypted choice is below the optionCount of the target proposal.
Every other call is unconditionally in range. -/
def inRangeOp (s : SVState) : Op → Bool
  | .vote sender now pid ov =>
      (vote s sender now pid ov).error.isSome
        || decide (ov % 256 < (s.proposals pid).optionCount)
  | _ => true

/-- Every accepted vote along the trace is in range. -/
def inRangeTrace (s : SVState) : List Op → Bool
  | [] => true
  | op :: ops => inRangeOp s op && inRangeTrace (exec s op) ops

/-- Structural invariant of every reachable contract state: each tally
holds exactly optionCount counters, every stored counter value and the
total are reduced modulo 2 to the 32, and an id at or above proposalCount
holds the default proposal except possibly for its finalized flag (which
a finalize call on a never-created id can set). -/
def StateInv (s : SVState) : Prop :=
  ∀ p : Nat,
    (s.results p).optionVotes.length = (s.proposals p).optionCount
    ∧ (∀ x ∈ (s.results p).optionVotes, x < MOD32)
    ∧ (s.results p).totalVotes < MOD32
    ∧ (s.proposalCount ≤ p →
        s.proposals p = defaultProposal
        ∨ s.proposals p = { defaultProposal with finalized := true })

/-- Tally correctness: every encrypted total equals the sum of the
encrypted per-option counters, modulo 2 to the 32. -/
def SumInv (s : SVState) : Prop :=
  ∀ p : Nat,
    (s.results p).totalVotes = (s.results p).optionVotes.sum % MOD32

/-- Scenario: a three-option public proposal created by the deployer with
voting window 0 to 100. -/
def exC1state : SVState :=
  (createProposal (initState 1) 1 0 "a" "b" 3 100 .PUBLIC_AFTER_END 1).state

/-- Scenario: a vote on the three-option proposal whose encrypted choice
has value 7, which is out of range. -/
def exC1vote : CallResult := vote exC1state 2 10 0 7

/-- Scenario: finalization of the public proposal after its end, making
all counters publicly decryptable. -/
def exC1fin : CallResult := finalizeProposal exC1vote.state 3 101 0

/-- Trace of a creation followed by two accepted in-range votes. -/
def exC1ops : List Op :=
  [.create 1 0 "a" "b" 3 100 .PUBLIC_AFTER_END 1,
   .vote 2 10 0 0, .vote 3 20 0 1]

/-- Scenario: an OwnerOnly proposal created by address 5 on a contract
deployed (hence globally owned) by address 1. -/
def exC2create : CallResult :=
  createProposal (initState 1) 5 0 "t" "u" 2 50 .OWNER_ONLY 1

/-- Scenario: finalization of the OwnerOnly proposal after its end. -/
def exC2fin : CallResult := finalizeProposal exC2create.state 9 60 0

/-- Scenario: a two-option public proposal with window 0 to 100. -/
def exC3state : SVState :=
  (createProposal (initState 1) 1 0 "c" "d" 2 100 .PUBLIC_AFTER_END 1).state

/-- Scenario: a vote on the two-option proposal whose encrypted choice has
value 5, which is out of range. -/
def exC3vote : CallResult := vote exC3state 4 10 0 5

/-- Scenario: createProposal called by address 2, which is neither the
global owner nor an administrator nor a proposer. -/
def exC4create : CallResult :=
  createProposal (initState 1) 2 0 "x" "y" 2 100 .PUBLIC_AFTER_END 1

/-- Scenario: a two-option public proposal with window 0 to 100 used for
the double-vote analysis. -/
def exC5state : SVState :=
  (createProposal (initState 1) 1 0 "e" "f" 2 100 .PUBLIC_AFTER_END 1).state

/-- Scenario: a first, accepted vote by address 2 inside the window. -/
def exC5vote1 : CallResult := vote exC5state 2 10 0 0

/-- Scenario: a second vote attempt by address 2 after the window. -/
def exC5vote2 : CallResult := vote exC5vote1.state 2 150 0 1

/-- Scenario: a second vote attempt by address 2 inside the window. -/
def exC5vote2in : CallResult := vote exC5vote1.state 2 20 0 1

/-- Scenario: an OwnerOnly proposal created by address 5. -/
def exC6create : CallResult :=
  createProposal (initState 1) 5 0 "p" "q" 2 80 .OWNER_ONLY 1

/-- Scenario: an accepted vote by address 6 on the OwnerOnly proposal. -/
def exC6vote : CallResult := vote exC6create.state 6 10 0 0

/-- Scenario: a two-option public proposal created at time 5, so its
voting window is 5 to 105. -/
def exC7state : SVState :=
  (createProposal (initState 1) 1 5 "g" "h" 2 100 .PUBLIC_AFTER_END 1).state

/-- Scenario: the same proposal after a successful finalization at
time 200. -/
def exC7fin : SVState := (finalizeProposal exC7state 1 200 0).state

lemma mod32_pos : 0 < MOD32 := by decide

lemma voteLoop_length (opt count : Nat) :
    ∀ (i : Nat) (l : List Nat), (voteLoop opt count i l).length = l.length := by
  intro i l
  induction l generalizing i with
  | nil => rfl
  | cons c rest ih => simp [voteLoop, ih]

lemma voteLoop_bounds (opt count : Nat) :
    ∀ (i : Nat) (l : List Nat), (∀ x ∈ l, x < MOD32) →
      ∀ x ∈ voteLoop opt count i l, x < MOD32 := by
  intro i l
  induction l generalizing i with
  | nil => intro _ x hx; simp [voteLoop] at hx
  | cons c rest ih =>
      intro hb x hx
      simp only [voteLoop, List.mem_cons] at hx
      rcases hx with hx | hx
      · subst hx
        split
        · exact Nat.mod_lt _ mod32_pos
        · exact hb c (List.mem_cons_self c rest)
      · exact ih (i + 1) (fun y hy => hb y (List.mem_cons_of_mem c hy)) x hx

lemma voteLoop_eq_self (opt count : Nat) :
    ∀ (i : Nat) (l : List Nat), (∀ x ∈ l, x < MOD32) →
      (opt < i ∨ count ≤ opt) → voteLoop opt count i l = l := by
  intro i l
  induction l generalizing i with
  | nil => intro _ _; rfl
  | cons c rest ih =>
      intro hb hcase
      have hent :
          (if i < count then (c + (if opt = i then 1 else 0)) % MOD32 else c)
            = c := by
        by_cases hic : i < count
        · have hne : opt ≠ i := by omega
          rw [if_pos hic, if_neg hne]
          simpa using Nat.mod_eq_of_lt (hb c (List.mem_cons_self c rest))
        · rw [if_neg hic]
      simp only [voteLoop, hent]
      rw [ih (i + 1) (fun y hy => hb y (List.mem_cons_of_mem c hy)) (by omega)]

lemma voteLoop_sum_hit (opt count : Nat) :
    ∀ (l : List Nat) (i : Nat), (∀ x ∈ l, x < MOD32) →
      i ≤ opt → opt < count → count ≤ i + l.length →
      (voteLoop opt count i l).sum % MOD32 = (l.sum + 1) % MOD32 := by
  intro l
  induction l with
  | nil => intro i _ h1 h2 h3; simp at h3; omega
  | cons c rest ih =>
      intro i hb h1 h2 h3
      have hic : i < count := by omega
      by_cases hoi : opt = i
      · have htail : voteLoop opt count (i + 1) rest = rest :=
          voteLoop_eq_self opt count (i + 1)
            rest (fun y hy => hb y (List.mem_cons_of_mem c hy)) (by omega)
        simp only [voteLoop, if_pos hic, if_pos hoi, htail, List.sum_cons]
        rw [Nat.mod_add_mod]
        have harr : c + 1 + rest.sum = c + rest.sum + 1 := by omega
        rw [harr]
      · have hne : (if opt = i then 1 else 0) = 0 := if_neg hoi
        have hc : c < MOD32 := hb c (List.mem_cons_self c rest)
        have ihe :=
          ih (i + 1) (fun y hy => hb y (List.mem_cons_of_mem c hy))
            (by omega) h2 (by simp at h3 ⊢; omega)
        simp only [voteLoop, if_pos hic, hne, Nat.add_zero,
          Nat.mod_eq_of_lt hc, List.sum_cons]
        rw [Nat.add_mod c, ihe, ← Nat.add_mod]
        have harr : c + (rest.sum + 1) = c + rest.sum + 1 := by omega
        rw [harr]

lemma vote_error_none_iff (s : SVState) (sender now pid ov : Nat) :
    (vote s sender now pid ov).error = none ↔
      ((s.proposals pid).startTime ≤ now ∧ now ≤ (s.proposals pid).endTime
        ∧ (s.proposals pid).finalized = false
        ∧ s.hasVotedClear pid sender = false) := by
  unfold vote
  by_cases h1 : now < (s.proposals pid).startTime
  · rw [if_pos h1]
    refine iff_of_false (by simp [revertWith]) ?_
    rintro ⟨hc, -, -, -⟩
    omega
  rw [if_neg h1]
  by_cases h2 : (s.proposals pid).endTime < now
  · rw [if_pos h2]
    refine iff_of_false (by simp [revertWith]) ?_
    rintro ⟨-, hc, -, -⟩
    omega
  rw [if_neg h2]
  by_cases h3 : (s.proposals pid).finalized = true
  · rw [if_pos h3]
    refine iff_of_false (by simp [revertWith]) ?_
    rintro ⟨-, -, hc, -⟩
    rw [h3] at hc
    cases hc
  rw [if_neg h3]
  by_cases h4 : s.hasVotedClear pid sender = true
  · rw [if_pos h4]
    refine iff_of_false (by simp [revertWith]) ?_
    rintro ⟨-, -, -, hc⟩
    rw [h4] at hc
    cases hc
  rw [if_neg h4]
  exact iff_of_true rfl
    ⟨by omega, by omega, by simpa using h3, by simpa using h4⟩

lemma vote_succ_of_checks (s : SVState) (sender now pid ov : Nat)
    (h1 : (s.proposals pid).startTime ≤ now)
    (h2 : now ≤ (s.proposals pid).endTime)
    (h3 : (s.proposals pid).finalized = false)
    (h4 : s.hasVotedClear pid sender = false) :
    vote s sender now pid ov = voteSucc s sender pid ov := by
  unfold vote
  rw [if_neg (by omega), if_neg (by omega), if_neg (by simp [h3]),
    if_neg (by simp [h4])]

lemma stateInv_init (deployer : Nat) : StateInv (initState deployer) := by
  intro p
  refine ⟨rfl, ?_, mod32_pos, fun _ => Or.inl rfl⟩
  intro x hx
  simp [initState, defaultResults] at hx

lemma stateInv_createProposal (s : SVState) (sender now : Nat)
    (t d : String) (oc dur : Nat) (strat : ResultDisclosureStrategy)
    (mq : Nat) (h : StateInv s) :
    StateInv (createProposal s sender now t d oc dur strat mq).state := by
  unfold createProposal
  split
  · exact h
  split
  · exact h
  split
  · exact h
  intro p
  dsimp only [createSucc]
  by_cases hp : p = s.proposalCount
  · subst hp
    simp only [if_pos rfl]
    refine ⟨by simp, ?_, mod32_pos, ?_⟩
    · intro x hx
      have hx0 := List.eq_of_mem_replicate hx
      subst hx0
      exact mod32_pos
    · intro hle
      exact absurd hle (by omega)
  · simp only [if_neg hp]
    obtain ⟨h1, h2, h3, h4⟩ := h p
    exact ⟨h1, h2, h3, fun hle => h4 (by omega)⟩

lemma stateInv_vote (s : SVState) (sender now pid ov : Nat)
    (h : StateInv s) : StateInv (vote s sender now pid ov).state := by
  unfold vote
  split
  · exact h
  split
  · exact h
  split
  · exact h
  split
  · exact h
  intro p
  dsimp only [voteSucc]
  by_cases hp : p = pid
  · subst hp
    obtain ⟨h1, h2, h3, h4⟩ := h p
    rw [if_pos rfl]
    refine ⟨?_, ?_, ?_, h4⟩
    · rw [voteLoop_length]
      exact h1
    · exact voteLoop_bounds _ _ _ _ h2
    · exact Nat.mod_lt _ mod32_pos
  · simp only [if_neg hp]
    exact h p

lemma stateInv_finalize (s : SVState) (sender now pid : Nat)
    (h : StateInv s) : StateInv (finalizeProposal s sender now pid).state := by
  unfold finalizeProposal
  split
  · exact h
  split
  · exact h
  intro p
  dsimp only [finalizeSucc]
  by_cases hp : p = pid
  · subst hp
    obtain ⟨h1, h2, h3, h4⟩ := h p
    rw [if_pos rfl]
    refine ⟨h1, h2, h3, ?_⟩
    intro hle
    rcases h4 hle with h5 | h5 <;> rw [h5] <;> right <;> rfl
  · simp only [if_neg hp]
    exact h p

lemma stateInv_grant (s : SVState) (sender pid acct : Nat)
    (h : StateInv s) :
    StateInv (grantDecryptionPermission s sender pid acct).state := by
  unfold grantDecryptionPermission
  split
  · exact h
  · exact h

lemma stateInv_setProposer (s : SVState) (sender acct : Nat) (st : Bool)
    (h : StateInv s) : StateInv (setProposer s sender acct st).state := by
  unfold setProposer
  split
  · exact h
  · exact h

lemma stateInv_setAdministrator (s : SVState) (sender acct : Nat)
    (st : Bool) (h : StateInv s) :
    StateInv (setAdministrator s sender acct st).state := by
  unfold setAdministrator
  split
  · exact h
  · exact h

lemma stateInv_setDuration (s : SVState) (sender dur : Nat)
    (h : StateInv s) :
    StateInv (setDefaultVotingDuration s sender dur).state := by
  unfold setDefaultVotingDuration
  split
  · split
    · exact h
    · exact h
  · exact h

lemma stateInv_exec (s : SVState) (op : Op) (h : StateInv s) :
    StateInv (exec s op) := by
  cases op with
  | create sender now t d oc dur strat mq =>
      exact stateInv_createProposal s sender now t d oc dur strat mq h
  | vote sender now pid ov => exact stateInv_vote s sender now pid ov h
  | finalize sender now pid => exact stateInv_finalize s sender now pid h
  | grant sender pid acct => exact stateInv_grant s sender pid acct h
  | setProposerOp sender acct st => exact stateInv_setProposer s sender acct st h
  | setAdministratorOp sender acct st =>
      exact stateInv_setAdministrator s sender acct st h
  | setDurationOp sender dur => exact stateInv_setDuration s sender dur h

lemma stateInv_execTrace (s : SVState) (ops : List Op) (h : StateInv s) :
    StateInv (execTrace s ops) := by
  induction ops generalizing s with
  | nil => exact h
  | cons op rest ih => exact ih (exec s op) (stateInv_exec s op h)

lemma sumInv_init (deployer : Nat) : SumInv (initState deployer) := by
  intro p
  rfl

lemma sumInv_createProposal (s : SVState) (sender now : Nat)
    (t d : String) (oc dur : Nat) (strat : ResultDisclosureStrategy)
    (mq : Nat) (h : SumInv s) :
    SumInv (createProposal s sender now t d oc dur strat mq).state := by
  unfold createProposal
  split
  · exact h
  split
  · exact h
  split
  · exact h
  intro p
  dsimp only [createSucc]
  by_cases hp : p = s.proposalCount
  · subst hp
    rw [if_pos rfl]
    simp [List.sum_replicate]
  · rw [if_neg hp]
    exact h p

lemma sumInv_vote (s : SVState) (sender now pid ov : Nat)
    (hS : StateInv s) (h : SumInv s)
    (hr : inRangeOp s (.vote sender now pid ov) = true) :
    SumInv (vote s sender now pid ov).state := by
  by_cases h1 : now < (s.proposals pid).startTime
  · unfold vote
    rw [if_pos h1]
    exact h
  by_cases h2 : (s.proposals pid).endTime < now
  · unfold vote
    rw [if_neg h1, if_pos h2]
    exact h
  by_cases h3 : (s.proposals pid).finalized = true
  · unfold vote
    rw [if_neg h1, if_neg h2, if_pos h3]
    exact h
  by_cases h4 : s.hasVotedClear pid sender = true
  · unfold vote
    rw [if_neg h1, if_neg h2, if_neg h3, if_pos h4]
    exact h
  have hok : (vote s sender now pid ov).error = none :=
    (vote_error_none_iff s sender now pid ov).mpr
      ⟨by omega, by omega, by simpa using h3, by simpa using h4⟩
  have hopt : ov % 256 < (s.proposals pid).optionCount := by
    simp only [inRangeOp, hok, Option.isSome_none, Bool.false_or,
      decide_eq_true_eq] at hr
    exact hr
  have hveq : vote s sender now pid ov = voteSucc s sender pid ov := by
    unfold vote
    rw [if_neg h1, if_neg h2, if_neg h3, if_neg h4]
  rw [hveq]
  intro p
  dsimp only [voteSucc]
  by_cases hp : p = pid
  · subst hp
    rw [if_pos rfl]
    obtain ⟨hlen, hb, htot, -⟩ := hS p
    have hsum := voteLoop_sum_hit (ov % 256) (s.proposals p).optionCount
      (s.results p).optionVotes 0 hb (Nat.zero_le _) hopt (by omega)
    rw [hsum, h p, Nat.mod_add_mod]
  · rw [if_neg hp]
    exact h p

lemma sumInv_finalize (s : SVState) (sender now pid : Nat)
    (h : SumInv s) : SumInv (finalizeProposal s sender now pid).state := by
  unfold finalizeProposal
  split
  · exact h
  split
  · exact h
  · exact h

lemma sumInv_grant (s : SVState) (sender pid acct : Nat) (h : SumInv s) :
    SumInv (grantDecryptionPermission s sender pid acct).state := by
  unfold grantDecryptionPermission
  split
  · exact h
  · exact h

lemma sumInv_setProposer (s : SVState) (sender acct : Nat) (st : Bool)
    (h : SumInv s) : SumInv (setProposer s sender acct st).state := by
  unfold setProposer
  split
  · exact h
  · exact h

lemma sumInv_setAdministrator (s : SVState) (sender acct : Nat) (st : Bool)
    (h : SumInv s) : SumInv (setAdministrator s sender acct st).state := by
  unfold setAdministrator
  split
  · exact h
  · exact h

lemma sumInv_setDuration (s : SVState) (sender dur : Nat) (h : SumInv s) :
    SumInv (setDefaultVotingDuration s sender dur).state := by
  unfold setDefaultVotingDuration
  split
  · split
    · exact h
    · exact h
  · exact h

lemma sumInv_exec (s : SVState) (op : Op) (hS : StateInv s) (h : SumInv s)
    (hr : inRangeOp s op = true) : SumInv (exec s op) := by
  cases op with
  | create sender now t d oc dur strat mq =>
      exact sumInv_createProposal s sender now t d oc dur strat mq h
  | vote sender now pid ov => exact sumInv_vote s sender now pid ov hS h hr
  | finalize sender now pid => exact sumInv_finalize s sender now pid h
  | grant sender pid acct => exact sumInv_grant s sender pid acct h
  | setProposerOp sender acct st => exact sumInv_setProposer s sender acct st h
  | setAdministratorOp sender acct st =>
      exact sumInv_setAdministrator s sender acct st h
  | setDurationOp sender dur => exact sumInv_setDuration s sender dur h

lemma sumInv_execTrace (s : SVState) (ops : List Op) (hS : StateInv s)
    (h : SumInv s) (hr : inRangeTrace s ops = true) :
    SumInv (execTrace s ops) := by
  induction ops generalizing s with
  | nil => exact h
  | cons op rest ih =>
      rw [inRangeTrace, Bool.and_eq_true] at hr
      exact ih (exec s op) (stateInv_exec s op hS)
        (sumInv_exec s op hS h hr.1) hr.2

lemma hasVoted_mono (s : SVState) (pid v : Nat)
    (h : s.hasVotedClear pid v = true) (op : Op) :
    (exec s op).hasVotedClear pid v = true := by
  cases op with
  | create sender now t d oc dur strat mq =>
      show (createProposal s sender now t d oc dur strat mq).state.hasVotedClear
        pid v = true
      unfold createProposal
      split
      · exact h
      split
      · exact h
      split
      · exact h
      · exact h
  | vote sender now pid2 ov =>
      show (vote s sender now pid2 ov).state.hasVotedClear pid v = true
      unfold vote
      split
      · exact h
      split
      · exact h
      split
      · exact h
      split
      · exact h
      · dsimp only [voteSucc]
        by_cases hc : pid = pid2 ∧ v = sender
        · rw [if_pos hc]
        · rw [if_neg hc]
          exact h
  | finalize sender now pid2 =>
      show (finalizeProposal s sender now pid2).state.hasVotedClear pid v = true
      unfold finalizeProposal
      split
      · exact h
      split
      · exact h
      · exact h
  | grant sender pid2 acct =>
      show (grantDecryptionPermission s sender pid2 acct).state.hasVotedClear
        pid v = true
      unfold grantDecryptionPermission
      split
      · exact h
      · exact h
  | setProposerOp sender acct st =>
      show (setProposer s sender acct st).state.hasVotedClear pid v = true
      unfold setProposer
      split
      · exact h
      · exact h
  | setAdministratorOp sender acct st =>
      show (setAdministrator s sender acct st).state.hasVotedClear pid v = true
      unfold setAdministrator
      split
      · exact h
      · exact h
  | setDurationOp sender dur =>
      show (setDefaultVotingDuration s sender dur).state.hasVotedClear pid v
        = true
      unfold setDefaultVotingDuration
      split
      · split
        · exact h
        · exact h
      · exact h

/-- C1 counterexample: on a fresh three-option public proposal, a single
accepted vote whose encrypted choice has the out-of-range value 7 is not
rejected; after finalization marks every counter publicly decryptable,
the decrypted total is 1 while the per-option counters sum to 0, so the
claimed equality total equals the sum of the options fails. -/
theorem c1_counterexample :
    exC1vote.error = none
    ∧ exC1fin.error = none
    ∧ exC1fin.perms =
        [.makePubliclyDecryptable (.optionCounter 0 0),
         .makePubliclyDecryptable (.optionCounter 0 1),
         .makePubliclyDecryptable (.optionCounter 0 2),
         .makePubliclyDecryptable (.totalCounter 0)]
    ∧ (exC1fin.state.results 0).totalVotes = 1
    ∧ (exC1fin.state.results 0).optionVotes.sum = 0 := by decide

/-- C1 (amended): along any trace from a freshly deployed contract in
which every accepted vote carries an in-range choice, every proposal's
stored encrypted total equals the sum of its stored encrypted per-option
counters modulo 2 to the 32, with exact equality whenever that sum is
below 2 to the 32 (the counters wrap at the euint32 width). -/
theorem c1_total_eq_sum (deployer : Nat) (ops : List Op) (p : Nat)
    (hr : inRangeTrace (initState deployer) ops = true) :
    ((execTrace (initState deployer) ops).results p).totalVotes
      = ((execTrace (initState deployer) ops).results p).optionVotes.sum % MOD32
    ∧ (((execTrace (initState deployer) ops).results p).optionVotes.sum < MOD32 →
        ((execTrace (initState deployer) ops).results p).totalVotes
          = ((execTrace (initState deployer) ops).results p).optionVotes.sum) := by
  have hsum := sumInv_execTrace (initState deployer) ops
    (stateInv_init deployer) (sumInv_init deployer) hr
  refine ⟨hsum p, fun hlt => ?_⟩
  rw [hsum p, Nat.mod_eq_of_lt hlt]

/-- Witness for C1 at the concrete trace of a creation and two accepted
in-range votes. -/
theorem c1_total_eq_sum_witness :
    inRangeTrace (initState 1) exC1ops = true
    ∧ (((execTrace (initState 1) exC1ops).results 0).totalVotes
        = ((execTrace (initState 1) exC1ops).results 0).optionVotes.sum % MOD32
      ∧ (((execTrace (initState 1) exC1ops).results 0).optionVotes.sum < MOD32 →
          ((execTrace (initState 1) exC1ops).results 0).totalVotes
            = ((execTrace (initState 1) exC1ops).results 0).optionVotes.sum)) :=
  ⟨by decide, c1_total_eq_sum 1 exC1ops 0 (by decide)⟩

/-- C2: evaluation at the failing input.  An OwnerOnly proposal whose
owner field is address 5 lives on a contract whose global owner is
address 1; its successful finalization grants persistent decrypt
permission on both per-option counters and the total to the global owner
1, and nothing at all to the proposal owner 5 (the source reads the
contract-global owner variable instead of the owner field of the
proposal). -/
theorem c2_finalize_grants_global_owner :
    (exC2create.state.proposals 0).owner = 5
    ∧ exC2create.state.owner = 1
    ∧ exC2fin.error = none
    ∧ exC2fin.perms =
        [.allow (.optionCounter 0 0) 1, .allow (.optionCounter 0 1) 1,
         .allow (.totalCounter 0) 1]
    ∧ PermAction.allow (.totalCounter 0) 5 ∉ exC2fin.perms
    ∧ PermAction.allow (.optionCounter 0 0) 5 ∉ exC2fin.perms
    ∧ PermAction.allow (.optionCounter 0 1) 5 ∉ exC2fin.perms := by decide

/-- C3 counterexample: a vote on a two-option proposal whose encrypted
choice has value 5 is not rejected with any error; it performs encrypted
work and modifies the encrypted total, contradicting the claimed
InvalidParameters/InvalidOption rejection before any encrypted update. -/
theorem c3_counterexample :
    (exC3state.proposals 0).optionCount = 2
    ∧ exC3vote.error = none
    ∧ 0 < exC3vote.fheOps
    ∧ (exC3vote.state.results 0).optionVotes = [0, 0]
    ∧ (exC3vote.state.results 0).totalVotes = 1 := by decide

/-- C3 (amended): vote performs no range check on the encrypted choice
(none is possible on a ciphertext); when the lifecycle and vote-guard
checks pass, a vote whose choice value is at or above optionCount is
accepted, leaves every per-option counter unchanged (every encrypted
equality in the loop is false) and still increments the encrypted
total. -/
theorem c3_out_of_range_vote (s : SVState) (sender now pid ov : Nat)
    (hb : ∀ x ∈ (s.results pid).optionVotes, x < MOD32)
    (h1 : (s.proposals pid).startTime ≤ now)
    (h2 : now ≤ (s.proposals pid).endTime)
    (h3 : (s.proposals pid).finalized = false)
    (h4 : s.hasVotedClear pid sender = false)
    (hoor : (s.proposals pid).optionCount ≤ ov % 256) :
    (vote s sender now pid ov).error = none
    ∧ ((vote s sender now pid ov).state.results pid).optionVotes
        = (s.results pid).optionVotes
    ∧ ((vote s sender now pid ov).state.results pid).totalVotes
        = ((s.results pid).totalVotes + 1) % MOD32 := by
  rw [vote_succ_of_checks s sender now pid ov h1 h2 h3 h4]
  refine ⟨rfl, ?_, ?_⟩
  · dsimp only [voteSucc]
    rw [if_pos rfl]
    exact voteLoop_eq_self _ _ _ _ hb (Or.inr hoor)
  · dsimp only [voteSucc]
    rw [if_pos rfl]

/-- Witness for C3 at the concrete out-of-range vote on the two-option
proposal. -/
theorem c3_out_of_range_vote_witness :
    ((∀ x ∈ (exC3state.results 0).optionVotes, x < MOD32)
      ∧ (exC3state.proposals 0).startTime ≤ 10
      ∧ 10 ≤ (exC3state.proposals 0).endTime
      ∧ (exC3state.proposals 0).finalized = false
      ∧ exC3state.hasVotedClear 0 4 = false
      ∧ (exC3state.proposals 0).optionCount ≤ 5 % 256)
    ∧ ((vote exC3state 4 10 0 5).error = none
      ∧ ((vote exC3state 4 10 0 5).state.results 0).optionVotes
          = (exC3state.results 0).optionVotes
      ∧ ((vote exC3state 4 10 0 5).state.results 0).totalVotes
          = ((exC3state.results 0).totalVotes + 1) % MOD32) :=
  ⟨by decide, c3_out_of_range_vote exC3state 4 10 0 5 (by decide) (by decide)
    (by decide) (by decide) (by decide) (by decide)⟩

/-- C4: evaluation at the failing input.  On a freshly deployed contract
owned by address 1, address 2 is neither the owner nor an administrator
nor a proposer, yet its createProposal call with valid parameters
succeeds, returns id 0 and stores the proposal (the source defines an
onlyProposer modifier but never applies it to createProposal). -/
theorem c4_create_without_authorization :
    (initState 1).proposers 2 = false
    ∧ (initState 1).administrators 2 = false
    ∧ (initState 1).owner = 1
    ∧ exC4create.error = none
    ∧ exC4create.ret = some 0
    ∧ exC4create.state.proposalCount = 1
    ∧ (exC4create.state.proposals 0).owner = 2 := by decide

/-- C5 counterexample: a voter who already voted and attempts to vote
again after the voting window fails with VotingEnded, not AlreadyVoted,
because the timing checks run before the vote guard; so not every later
attempt fails with AlreadyVoted. -/
theorem c5_counterexample :
    exC5vote1.error = none
    ∧ exC5vote1.state.hasVotedClear 0 2 = true
    ∧ exC5vote2.error = some .VotingEnded
    ∧ exC5vote2.error ≠ some .AlreadyVoted := by decide

/-- C5 (amended): a successful vote records the voter in the clear-text
guard; the guard is never cleared by any call; while it is set, any vote
attempt by that voter on that proposal fails, leaves the state
bit-for-bit unchanged, performs zero encrypted operations and no
permission actions, and the error is AlreadyVoted precisely when the
attempt passes the lifecycle checks (otherwise it is the corresponding
lifecycle error). -/
theorem c5_at_most_one_vote (s : SVState) (v now pid ov : Nat) :
    ((vote s v now pid ov).error = none →
      (vote s v now pid ov).state.hasVotedClear pid v = true)
    ∧ (s.hasVotedClear pid v = true →
        (vote s v now pid ov).error.isSome = true
        ∧ (vote s v now pid ov).state = s
        ∧ (vote s v now pid ov).fheOps = 0
        ∧ (vote s v now pid ov).perms = []
        ∧ ((s.proposals pid).startTime ≤ now →
            now ≤ (s.proposals pid).endTime →
            (s.proposals pid).finalized = false →
            (vote s v now pid ov).error = some .AlreadyVoted))
    ∧ (s.hasVotedClear pid v = true →
        ∀ op : Op, (exec s op).hasVotedClear pid v = true) := by
  refine ⟨?_, ?_, fun hv op => hasVoted_mono s pid v hv op⟩
  · intro he
    obtain ⟨h1, h2, h3, h4⟩ := (vote_error_none_iff s v now pid ov).mp he
    rw [vote_succ_of_checks s v now pid ov h1 h2 h3 h4]
    dsimp only [voteSucc]
    rw [if_pos ⟨rfl, rfl⟩]
  · intro hv
    unfold vote
    by_cases h1 : now < (s.proposals pid).startTime
    · rw [if_pos h1]
      exact ⟨rfl, rfl, rfl, rfl, fun hs _ _ => absurd hs (by omega)⟩
    rw [if_neg h1]
    by_cases h2 : (s.proposals pid).endTime < now
    · rw [if_pos h2]
      exact ⟨rfl, rfl, rfl, rfl, fun _ he _ => absurd he (by omega)⟩
    rw [if_neg h2]
    by_cases h3 : (s.proposals pid).finalized = true
    · rw [if_pos h3]
      refine ⟨rfl, rfl, rfl, rfl, fun _ _ hf => ?_⟩
      rw [h3] at hf
      cases hf
    rw [if_neg h3, if_pos hv]
    exact ⟨rfl, rfl, rfl, rfl, fun _ _ _ => rfl⟩

/-- Witness for C5: on the concrete scenario the first vote sets the
guard, an in-window second attempt fails with AlreadyVoted, and the guard
survives a further call. -/
theorem c5_at_most_one_vote_witness :
    exC5vote1.state.hasVotedClear 0 2 = true
    ∧ exC5vote2in.error = some .AlreadyVoted
    ∧ (exec exC5vote1.state (.vote 9 30 0 0)).hasVotedClear 0 2 = true :=
  ⟨(c5_at_most_one_vote exC5state 2 10 0 0).1 (by decide),
   ((c5_at_most_one_vote exC5vote1.state 2 20 0 1).2.1 (by decide)).2.2.2.2
     (by decide) (by decide) (by decide),
   (c5_at_most_one_vote exC5vote1.state 2 20 0 1).2.2 (by decide)
     (.vote 9 30 0 0)⟩

/-- C6 counterexample: on an OwnerOnly proposal owned by address 5, an
accepted vote by address 6 does perform permission actions: it grants
persistent decrypt permission on both per-option counters and the total
to the proposal owner 5, contradicting the claimed absence of any
permission action during voting. -/
theorem c6_counterexample :
    exC6vote.error = none
    ∧ (exC6create.state.proposals 0).strategy = .OWNER_ONLY
    ∧ PermAction.allow (.totalCounter 0) 5 ∈ exC6vote.perms
    ∧ PermAction.allow (.optionCounter 0 0) 5 ∈ exC6vote.perms
    ∧ PermAction.allow (.optionCounter 0 1) 5 ∈ exC6vote.perms := by decide

/-- C6 (amended): under the OwnerOnly strategy a successful vote does
perform permission actions: besides the contract-self allows on the
updated counters and the persistent grant of the voter's encrypted
has-voted flag to the voter, it grants persistent decrypt permission on
every per-option counter and the total to the proposal owner (and grants
nothing on the counters to the voter). -/
theorem c6_vote_grants_under_owner_only (s : SVState)
    (sender now pid ov : Nat)
    (hstrat : (s.proposals pid).strategy = .OWNER_ONLY)
    (h1 : (s.proposals pid).startTime ≤ now)
    (h2 : now ≤ (s.proposals pid).endTime)
    (h3 : (s.proposals pid).finalized = false)
    (h4 : s.hasVotedClear pid sender = false) :
    (vote s sender now pid ov).perms =
      ((List.range (s.proposals pid).optionCount).map fun i =>
        .allowThis (.optionCounter pid i))
      ++ [.allowThis (.totalCounter pid),
          .allow (.hasVotedFlag pid sender) sender]
      ++ ((List.range (s.proposals pid).optionCount).map fun i =>
        .allow (.optionCounter pid i) (s.proposals pid).owner)
      ++ [.allow (.totalCounter pid) (s.proposals pid).owner] := by
  rw [vote_succ_of_checks s sender now pid ov h1 h2 h3 h4]
  dsimp only [voteSucc]
  rw [hstrat]
  simp [List.append_assoc]

/-- Witness for C6 at the concrete OwnerOnly vote. -/
theorem c6_vote_grants_under_owner_only_witness :
    ((exC6create.state.proposals 0).strategy = .OWNER_ONLY
      ∧ (exC6create.state.proposals 0).startTime ≤ 10
      ∧ 10 ≤ (exC6create.state.proposals 0).endTime
      ∧ (exC6create.state.proposals 0).finalized = false
      ∧ exC6create.state.hasVotedClear 0 6 = false)
    ∧ (vote exC6create.state 6 10 0 0).perms =
        ((List.range (exC6create.state.proposals 0).optionCount).map fun i =>
          .allowThis (.optionCounter 0 i))
        ++ [.allowThis (.totalCounter 0), .allow (.hasVotedFlag 0 6) 6]
        ++ ((List.range (exC6create.state.proposals 0).optionCount).map fun i =>
          .allow (.optionCounter 0 i) (exC6create.state.proposals 0).owner)
        ++ [.allow (.totalCounter 0) (exC6create.state.proposals 0).owner] :=
  ⟨by decide, c6_vote_grants_under_owner_only exC6create.state 6 10 0 0
    (by decide) (by decide) (by decide) (by decide) (by decide)⟩

/-- C7: lifecycle failure ordering.  A vote before startTime reverts with
VotingNotStarted; a vote after endTime (but not before startTime) reverts
with VotingEnded; a finalization at or before endTime reverts with
VotingNotEnded; a finalization after endTime of an already finalized
proposal reverts with AlreadyFinalized; each revert leaves the state
unchanged. -/
theorem c7_lifecycle_errors (s : SVState) (sender now pid ov : Nat) :
    (now < (s.proposals pid).startTime →
      vote s sender now pid ov = revertWith s .VotingNotStarted)
    ∧ ((s.proposals pid).startTime ≤ now → (s.proposals pid).endTime < now →
        vote s sender now pid ov = revertWith s .VotingEnded)
    ∧ (now ≤ (s.proposals pid).endTime →
        finalizeProposal s sender now pid = revertWith s .VotingNotEnded)
    ∧ ((s.proposals pid).endTime < now → (s.proposals pid).finalized = true →
        finalizeProposal s sender now pid = revertWith s .AlreadyFinalized) := by
  refine ⟨?_, ?_, ?_, ?_⟩
  · intro h1
    unfold vote
    rw [if_pos h1]
  · intro h1 h2
    unfold vote
    rw [if_neg (by omega), if_pos h2]
  · intro h1
    unfold finalizeProposal
    rw [if_pos (by omega)]
  · intro h1 h2
    unfold finalizeProposal
    rw [if_neg (not_not_intro h1), if_pos h2]

/-- Witness for C7 on a proposal with voting window 5 to 105, exercising
all four failure cases at concrete times. -/
theorem c7_lifecycle_errors_witness :
    (3 < (exC7state.proposals 0).startTime
      ∧ vote exC7state 2 3 0 0 = revertWith exC7state .VotingNotStarted)
    ∧ ((exC7state.proposals 0).startTime ≤ 200
      ∧ (exC7state.proposals 0).endTime < 200
      ∧ vote exC7state 2 200 0 0 = revertWith exC7state .VotingEnded)
    ∧ (50 ≤ (exC7state.proposals 0).endTime
      ∧ finalizeProposal exC7state 2 50 0 = revertWith exC7state .VotingNotEnded)
    ∧ ((exC7fin.proposals 0).endTime < 300
      ∧ (exC7fin.proposals 0).finalized = true
      ∧ finalizeProposal exC7fin 2 300 0 = revertWith exC7fin .AlreadyFinalized) :=
  ⟨⟨by decide, (c7_lifecycle_errors exC7state 2 3 0 0).1 (by decide)⟩,
   ⟨by decide, by decide,
    (c7_lifecycle_errors exC7state 2 200 0 0).2.1 (by decide) (by decide)⟩,
   ⟨by decide, (c7_lifecycle_errors exC7state 2 50 0 0).2.2.1 (by decide)⟩,
   ⟨by decide, by decide,
    (c7_lifecycle_errors exC7fin 2 300 0 0).2.2.2 (by decide) (by decide)⟩⟩

/-- C8: createProposal accepts exactly the parameter combinations with
optionCount in 2..10, duration in 1..365 days and positive minQuorum;
every rejection is one of the three parameter errors; on success it
returns the next sequential id, increments the count and stores the
proposal with the given attributes, window now to now plus duration, not
finalized, owned by the caller. -/
theorem c8_create_validation (s : SVState) (sender now : Nat) (t d : String)
    (oc dur : Nat) (strat : ResultDisclosureStrategy) (mq : Nat) :
    ((createProposal s sender now t d oc dur strat mq).error = none ↔
      (2 ≤ oc ∧ oc ≤ 10 ∧ 0 < dur ∧ dur ≤ DAYS365 ∧ 0 < mq))
    ∧ (∀ e, (createProposal s sender now t d oc dur strat mq).error = some e →
        e = .InvalidOptionCount ∨ e = .InvalidDuration ∨ e = .InvalidQuorum)
    ∧ ((createProposal s sender now t d oc dur strat mq).error = none →
        (createProposal s sender now t d oc dur strat mq).ret
            = some s.proposalCount
        ∧ (createProposal s sender now t d oc dur strat mq).state.proposalCount
            = s.proposalCount + 1
        ∧ (createProposal s sender now t d oc dur strat mq).state.proposals
            s.proposalCount
            = ⟨t, d, now, now + dur, oc, false, sender, strat, mq⟩) := by
  unfold createProposal
  by_cases hoc : 2 ≤ oc ∧ oc ≤ 10
  · by_cases hdur : 0 < dur ∧ dur ≤ DAYS365
    · by_cases hmq : 0 < mq
      · rw [if_neg (not_not_intro hoc), if_neg (not_not_intro hdur),
          if_neg (not_not_intro hmq)]
        refine ⟨iff_of_true rfl ⟨hoc.1, hoc.2, hdur.1, hdur.2, hmq⟩, ?_, ?_⟩
        · intro e he
          exact Option.noConfusion he
        · intro _
          refine ⟨rfl, rfl, ?_⟩
          dsimp only [createSucc]
          rw [if_pos rfl]
      · rw [if_neg (not_not_intro hoc), if_neg (not_not_intro hdur),
          if_pos hmq]
        refine ⟨iff_of_false (by simp [revertWith]) ?_, ?_, ?_⟩
        · rintro ⟨-, -, -, -, hq⟩
          exact hmq hq
        · intro e he
          simp only [revertWith, Option.some.injEq] at he
          exact Or.inr (Or.inr he.symm)
        · intro he
          simp [revertWith] at he
    · rw [if_neg (not_not_intro hoc), if_pos hdur]
      refine ⟨iff_of_false (by simp [revertWith]) ?_, ?_, ?_⟩
      · rintro ⟨-, -, hd1, hd2, -⟩
        exact hdur ⟨hd1, hd2⟩
      · intro e he
        simp only [revertWith, Option.some.injEq] at he
        exact Or.inr (Or.inl he.symm)
      · intro he
        simp [revertWith] at he
  · rw [if_pos hoc]
    refine ⟨iff_of_false (by simp [revertWith]) ?_, ?_, ?_⟩
    · rintro ⟨ho1, ho2, -, -, -⟩
      exact hoc ⟨ho1, ho2⟩
    · intro e he
      simp only [revertWith, Option.some.injEq] at he
      exact Or.inl he.symm
    · intro he
      simp [revertWith] at he

/-- Witness for C8: a valid call (optionCount 3, duration 10, quorum 2)
is accepted and stores the proposal at id 0; an invalid one
(optionCount 1) is rejected. -/
theorem c8_create_validation_witness :
    ((createProposal (initState 1) 1 0 "w" "v" 3 10 .PUBLIC_AFTER_END 2).error
        = none
      ↔ (2 ≤ 3 ∧ 3 ≤ 10 ∧ 0 < 10 ∧ 10 ≤ DAYS365 ∧ 0 < 2))
    ∧ ((createProposal (initState 1) 1 0 "w" "v" 3 10
          .PUBLIC_AFTER_END 2).ret = some (initState 1).proposalCount
      ∧ (createProposal (initState 1) 1 0 "w" "v" 3 10
          .PUBLIC_AFTER_END 2).state.proposalCount
          = (initState 1).proposalCount + 1
      ∧ (createProposal (initState 1) 1 0 "w" "v" 3 10
          .PUBLIC_AFTER_END 2).state.proposals (initState 1).proposalCount
          = ⟨"w", "v", 0, 0 + 10, 3, false, 1, .PUBLIC_AFTER_END, 2⟩)
    ∧ ((createProposal (initState 1) 1 0 "w" "v" 1 10
          .PUBLIC_AFTER_END 2).error = none
      ↔ (2 ≤ 1 ∧ 1 ≤ 10 ∧ 0 < 10 ∧ 10 ≤ DAYS365 ∧ 0 < 2)) :=
  ⟨(c8_create_validation (initState 1) 1 0 "w" "v" 3 10 .PUBLIC_AFTER_END 2).1,
   (c8_create_validation (initState 1) 1 0 "w" "v" 3 10
      .PUBLIC_AFTER_END 2).2.2 (by decide),
   (c8_create_validation (initState 1) 1 0 "w" "v" 1 10 .PUBLIC_AFTER_END 2).1⟩

/-- C9 counterexample: on a fresh contract with zero proposals, the
proposal accessor applied to id 5 does not fail with NotFound; it
succeeds and returns the zero-initialized default Proposal (it is the
auto-generated public mapping getter, which is total). -/
theorem c9_counterexample :
    (initState 1).proposalCount = 0
    ∧ getProposal (initState 1) 5 = .ok defaultProposal := ⟨rfl, rfl⟩

/-- C9 (amended): the proposal accessor is the auto-generated public
mapping getter: it is read-only and total, returning the stored struct
for every id; on any reachable state, an id at or above the current count
holds the default (zero) Proposal, except that its finalized flag may
have been set by a finalize call on that never-created id. -/
theorem c9_getProposal_total (deployer : Nat) (ops : List Op) (idp : Nat) :
    getProposal (execTrace (initState deployer) ops) idp
      = .ok ((execTrace (initState deployer) ops).proposals idp)
    ∧ ((execTrace (initState deployer) ops).proposalCount ≤ idp →
        (execTrace (initState deployer) ops).proposals idp = defaultProposal
        ∨ (execTrace (initState deployer) ops).proposals idp
            = { defaultProposal with finalized := true }) := by
  refine ⟨rfl, fun hle => ?_⟩
  exact ((stateInv_execTrace (initState deployer) ops
    (stateInv_init deployer)) idp).2.2.2 hle

/-- Witness for C9 on the concrete trace, at the never-created id 9. -/
theorem c9_getProposal_total_witness :
    getProposal (execTrace (initState 1) exC1ops) 9
      = .ok ((execTrace (initState 1) exC1ops).proposals 9)
    ∧ ((execTrace (initState 1) exC1ops).proposals 9 = defaultProposal
      ∨ (execTrace (initState 1) exC1ops).proposals 9
          = { defaultProposal with finalized := true }) :=
  ⟨(c9_getProposal_total 1 exC1ops 9).1,
   (c9_getProposal_total 1 exC1ops 9).2 (by decide)⟩

/-- C10: finalizeProposal performs no existence check.  On any reachable
state, for an id at or above the current proposal count that has not been
finalized before, a finalization at any positive time succeeds (the
default endTime 0 has passed), sets the finalized flag of that id and
emits the finalize event, instead of failing with NotFound. -/
theorem c10_finalize_nonexistent (deployer : Nat) (ops : List Op)
    (sender now idp : Nat)
    (hid : (execTrace (initState deployer) ops).proposalCount ≤ idp)
    (hnow : 1 ≤ now)
    (hfin : ((execTrace (initState deployer) ops).proposals idp).finalized
        = false) :
    (finalizeProposal (execTrace (initState deployer) ops) sender now
        idp).error = none
    ∧ ((finalizeProposal (execTrace (initState deployer) ops) sender now
        idp).state.proposals idp).finalized = true
    ∧ (finalizeProposal (execTrace (initState deployer) ops) sender now
        idp).events = [.ProposalFinalized idp] := by
  have hdef := (stateInv_execTrace (initState deployer) ops
    (stateInv_init deployer) idp).2.2.2 hid
  have hend : ((execTrace (initState deployer) ops).proposals idp).endTime
      = 0 := by
    rcases hdef with h5 | h5 <;> rw [h5] <;> rfl
  unfold finalizeProposal
  rw [if_neg (not_not_intro (by omega)), if_neg (by simp [hfin])]
  dsimp only [finalizeSucc]
  refine ⟨rfl, ?_, rfl⟩
  rw [if_pos rfl]

/-- Witness for C10: finalizing the never-created id 7 on a fresh
contract at time 5 succeeds and marks it finalized. -/
theorem c10_finalize_nonexistent_witness :
    ((initState 1).proposalCount ≤ 7 ∧ 1 ≤ 5
      ∧ ((initState 1).proposals 7).finalized = false)
    ∧ ((finalizeProposal (initState 1) 2 5 7).error = none
      ∧ ((finalizeProposal (initState 1) 2 5 7).state.proposals 7).finalized
          = true
      ∧ (finalizeProposal (initState 1) 2 5 7).events
          = [.ProposalFinalized 7]) :=
  ⟨by decide,
   c10_finalize_nonexistent 1 [] 2 5 7 (by decide) (by decide) (by decide)⟩

end SecretVoting
